import Mathlib

/-!
Verification development for the proposal-matching engine
(`match_final.py` and `generate_prompts.py`): a shallow embedding of the
matching pipeline, followed by theorems settling the specification claims.

Conventions of the embedding:
* Python strings are Lean `String` (operated on through their `List Char`);
* Python floats used for similarity scores are modelled exactly as `ℚ`;
* Python `None`-able values are `Option`;
* Python dicts (the input records and the slug index) are association
  lists in insertion order, with last-write-wins insertion;
* the external string-similarity library (rapidfuzz) is modelled by
  executable functions implementing its documented semantics
  (normalized indel similarity, best-aligned-substring similarity,
  token-set similarity), as permitted by the specification, which treats
  the similarity library as a substitutable collaborator.
-/

attribute [local semireducible] Rat.add Rat.mul Rat.inv Rat.sub Rat.ofScientific

/-- Lowercase a string (Python `str.lower`, ASCII model). -/
def lowerStr (s : String) : String := String.mk (s.data.map (fun c => c.toLower))

/-- Case-sensitive: does the pattern list occur as a prefix of the text list? -/
def listStarts : List Char → List Char → Bool
  | [], _ => true
  | _ :: _, [] => false
  | p :: ps, c :: cs => p = c && listStarts ps cs

/-- Case-sensitive substring containment on char lists (Python `in` on str). -/
def hasPlain (pat : List Char) : List Char → Bool
  | [] => pat.isEmpty
  | c :: t => listStarts pat (c :: t) || hasPlain pat t

/-- Python `needle in hay` for strings. -/
def hasSubstr (needle hay : String) : Bool := hasPlain needle.data hay.data

/-- Case-insensitive: does the lowercase pattern occur as a prefix of the text? -/
def listStartsCI : List Char → List Char → Bool
  | [], _ => true
  | _ :: _, [] => false
  | p :: ps, c :: cs => c.toLower = p && listStartsCI ps cs

/-- Case-insensitive substring containment (pattern given lowercase). -/
def hasCI (pat : List Char) : List Char → Bool
  | [] => pat.isEmpty
  | c :: t => listStartsCI pat (c :: t) || hasCI pat t

/-- Match a lowercase literal case-insensitively at the front of the text,
returning the remaining text on success. -/
def stripCI : List Char → List Char → Option (List Char)
  | [], l => some l
  | _ :: _, [] => none
  | p :: ps, c :: cs => if c.toLower = p then stripCI ps cs else none

/-- Drop a single optional leading character (regex `x?`). -/
def dropOpt (ch : Char) : List Char → List Char
  | [] => []
  | c :: cs => if c = ch then cs else c :: cs

/-- Drop leading whitespace (regex `\s*`). -/
def dropWS (l : List Char) : List Char := l.dropWhile (fun c => c.isWhitespace)

/-- Collapse each whitespace run to a single space (regex `\s+` -> one space). -/
def squeezeWS : List Char → List Char
  | [] => []
  | [a] => [if a.isWhitespace then ' ' else a]
  | a :: b :: t =>
    if a.isWhitespace && b.isWhitespace then squeezeWS (b :: t)
    else (if a.isWhitespace then ' ' else a) :: squeezeWS (b :: t)

/-- Collapse runs of a given character to a single occurrence (regex `x+` -> `x`). -/
def squeezeChar (ch : Char) : List Char → List Char
  | [] => []
  | [a] => [a]
  | a :: b :: t =>
    if a = ch && b = ch then squeezeChar ch (b :: t)
    else a :: squeezeChar ch (b :: t)

/-- Strip leading and trailing whitespace (Python `str.strip`). -/
def trimWS (l : List Char) : List Char :=
  ((l.dropWhile (fun c => c.isWhitespace)).reverse.dropWhile (fun c => c.isWhitespace)).reverse

/-- Strip leading and trailing occurrences of a character (Python `str.strip('-')`). -/
def trimChar (ch : Char) (l : List Char) : List Char :=
  ((l.dropWhile (fun c => c = ch)).reverse.dropWhile (fun c => c = ch)).reverse

/-- Non-overlapping left-to-right replacement of a non-empty pattern
(Python `str.replace`); the fuel argument is a structural-recursion device,
always at least the text length. -/
def replaceL (pat rep : List Char) : Nat → List Char → List Char
  | 0, l => l
  | _ + 1, [] => []
  | f + 1, c :: cs =>
    if listStarts pat (c :: cs) && !pat.isEmpty then
      rep ++ replaceL pat rep f ((c :: cs).drop pat.length)
    else c :: replaceL pat rep f cs

/-- Python `str.replace` on strings. -/
def replaceStr (s pat rep : String) : String :=
  String.mk (replaceL pat.data rep.data s.data.length s.data)

/-- Model of Python standard-library `html.unescape`, restricted to the four
predefined entities; no title handled by the claims contains any other
entity reference.  `&amp;` is decoded last, matching the single-pass
behaviour of the library function on these entities. -/
def html_unescape (s : String) : String :=
  replaceStr (replaceStr (replaceStr (replaceStr s "&lt;" "<") "&gt;" ">")
    "&quot;" (String.mk [Char.ofNat 34])) "&amp;" "&"

/-- The alternatives of the first boilerplate pattern of `normalize_title`
(`Non-?Constitutional|Constitutional|RFC|AIP|Draft|DRAFT|NON-CONSTITUTIONAL|FINAL`),
lowercased; with `re.IGNORECASE` the duplicate alternatives collapse. -/
def normAlts : List (List Char) :=
  ["non-constitutional".data, "nonconstitutional".data, "constitutional".data,
   "rfc".data, "aip".data, "draft".data, "final".data]

/-- Try a list of lowercase literal alternatives at the front of the text
(regex alternation: first alternative that matches wins). -/
def tryAlts : List (List Char) → List Char → Option (List Char)
  | [], _ => none
  | a :: as, l => match stripCI a l with | some r => some r | none => tryAlts as l

/-- Regex `^\[?(<alts>)\]?\s*:?\s*` with IGNORECASE, applied once (the `^`
anchor admits at most one substitution); a non-match leaves the text intact.
None of the alternatives begins with `[`, so when the text begins with `[`
the bracket must be consumed for the pattern to match. -/
def applyPat1 (l : List Char) : List Char :=
  let rest := match l with
    | '[' :: t => t
    | _ => l
  match tryAlts normAlts rest with
  | none => l
  | some r => dropWS (dropOpt ':' (dropWS (dropOpt ']' r)))

/-- Regex `^Proposal\s*:?\s*` with IGNORECASE, applied once. -/
def applyPat2 (l : List Char) : List Char :=
  match stripCI "proposal".data l with
  | none => l
  | some r => dropWS (dropOpt ':' (dropWS r))

/-- Regex `^#\s*`, applied once. -/
def applyPat3 (l : List Char) : List Char :=
  match l with
  | '#' :: t => dropWS t
  | _ => l

/-- Regex `^\[?UPDATED\]?\s*` with IGNORECASE, applied once (the source lists
this pattern twice, as `UPDATED` and `Updated`; under IGNORECASE both are the
same pattern, so the pipeline simply applies it two times in a row). -/
def applyPatU (l : List Char) : List Char :=
  let rest := match l with
    | '[' :: t => t
    | _ => l
  match stripCI "updated".data rest with
  | none => l
  | some r => dropWS (dropOpt ']' r)

/-- Embedding of `normalize_title` from `match_final.py`: HTML-decode, strip the fixed
sequence of leading boilerplate patterns, collapse whitespace, trim,
lowercase. -/
def normalize_title (title : String) : String :=
  if title = "" then ""
  else
    let t := html_unescape title
    let l := applyPatU (applyPatU (applyPat3 (applyPat2 (applyPat1 t.data))))
    lowerStr (String.mk (trimWS (squeezeWS l)))

/-- Embedding of `title_to_slug` from `match_final.py`: HTML-decode, lowercase, keep only
word characters, whitespace and hyphens, turn whitespace into hyphens,
collapse repeated hyphens, strip outer hyphens. -/
def title_to_slug (title : String) : String :=
  if title = "" then ""
  else
    let t := lowerStr (html_unescape title)
    let kept := t.data.filter (fun c => c.isAlphanum || c = '_' || c.isWhitespace || c = '-')
    let hyph := kept.map (fun c => if c.isWhitespace then '-' else c)
    String.mk (trimChar '-' (squeezeChar '-' hyph))

/-- Characters admitted by the link-slug character class `[a-zA-Z0-9_-]`. -/
def isSlugChar (c : Char) : Bool := c.isAlphanum || c = '_' || c = '-'

/-- The literal part of the forum-link pattern, lowercase. -/
def forumLit : List Char := "forum.arbitrum.foundation/t/".data

/-- Scanner for the regex `forum\.arbitrum\.foundation/t/([a-zA-Z0-9_-]+)(?:/(\d+))?`
with IGNORECASE: at each position try the full pattern; on failure advance one
character, on success emit `(slug.lower(), optional digits)` and resume after
the match (`re.findall` returns non-overlapping matches in order).  The fuel
argument is a structural-recursion device; it is always at least the length
of the text, so it never runs out before the text does. -/
def scanLinks : Nat → List Char → List (String × Option String)
  | 0, _ => []
  | _ + 1, [] => []
  | fuel + 1, c :: cs =>
    match stripCI forumLit (c :: cs) with
    | none => scanLinks fuel cs
    | some rest =>
      let slug := rest.takeWhile isSlugChar
      let rest2 := rest.dropWhile isSlugChar
      if slug = [] then scanLinks fuel cs
      else
        let emit := String.mk (slug.map (fun c => c.toLower))
        match rest2 with
        | '/' :: d :: ds =>
          if d.isDigit then
            (emit, some (String.mk ((d :: ds).takeWhile (fun x => x.isDigit)))) ::
              scanLinks fuel ((d :: ds).dropWhile (fun x => x.isDigit))
          else (emit, none) :: scanLinks fuel rest2
        | _ => (emit, none) :: scanLinks fuel rest2

/-- Embedding of `extract_forum_links` from `match_final.py`. -/
def extract_forum_links (text : String) : List (String × Option String) :=
  if text = "" then [] else scanLinks text.data.length text.data

/-- Does the case-sensitive literal, end-anchored by regex `$`, match the
title under `re.search`?  `$` matches at the very end or just before a
terminal newline. -/
def searchEnd (lit : String) (t : String) : Bool :=
  listStarts lit.data.reverse t.data.reverse ||
    listStarts (lit ++ "\n").data.reverse t.data.reverse

/-- Embedding of `is_stip_ltipp_protocol` from `match_final.py`: five case-sensitive
end-anchored patterns. -/
def is_stip_ltipp_protocol (title : String) : Bool :=
  if title = "" then false
  else
    searchEnd "STIP Proposal - Round 1" title ||
    searchEnd "STIP Addendum" title ||
    searchEnd "LTIPP Council Recommended Proposal" title ||
    searchEnd "STIP Bridge Challenge" title ||
    searchEnd "LTIPP [Post Council Feedback]" title

/-- Search for `lit2` (lowercase literal) in the text with no intervening
newline (the `.` of regex `.*` does not match a newline), case-insensitively. -/
def seekNoNL (pat : List Char) : List Char → Bool
  | [] => pat.isEmpty
  | c :: t => listStartsCI pat (c :: t) || (!(c = '\n') && seekNoNL pat t)

/-- Semantics of `re.search` of the two-literal pattern `lit1.*lit2` with IGNORECASE:
some occurrence of `lit1` followed, with no intervening newline, by `lit2`. -/
def gapAux (p1 p2 : List Char) : List Char → Bool
  | [] => false
  | c :: t =>
    (match stripCI p1 (c :: t) with
     | some r => seekNoNL p2 r
     | none => false) || gapAux p1 p2 t

/-- Case-insensitive `re.search` of `a.*b` within `t` (literals given lowercase). -/
def gapCI (a b : String) (t : String) : Bool := gapAux a.data b.data t.data

/-- Embedding of `is_election` from `match_final.py`: nine case-insensitive patterns,
searched anywhere in the title. -/
def is_election (title : String) : Bool :=
  if title = "" then false
  else
    gapCI "security council" "election" title ||
    gapCI "reconfirmation" "council" title ||
    gapCI "d.a.o." "elections" title ||
    hasCI "domain allocator election".data title.data ||
    hasCI "council election".data title.data ||
    gapCI "ardc" "election" title ||
    hasCI "advisor elections".data title.data ||
    gapCI "election of" "members" title ||
    gapCI "election of" "manager" title

/-- The literal garbage-title block-list of the tally loop. -/
def garbage_titles : List String := ["art dra", "Arcubtang", "AIP 4"]

/-- Python `str.strip()` on strings. -/
def stripStr (s : String) : String := String.mk (trimWS s.data)

/-- Embedding of `is_skip_tally` from `generate_prompts.py`: empty title, or trimmed title
in the block-list, or trimmed title shorter than three characters. -/
def is_skip_tally (title : String) : Bool :=
  if title = "" then true
  else decide ((stripStr title) ∈ garbage_titles) || decide ((stripStr title).length < 3)

/-- Longest common subsequence length, with a fuel argument as a structural
recursion device (fuel at least the sum of the lengths suffices). -/
def lcsF : Nat → List Char → List Char → Nat
  | 0, _, _ => 0
  | _ + 1, [], _ => 0
  | _ + 1, _ :: _, [] => 0
  | f + 1, a :: as, b :: bs =>
    if a = b then lcsF f as bs + 1
    else max (lcsF f as (b :: bs)) (lcsF f (a :: as) bs)

/-- Longest common subsequence length of two char lists. -/
def lcs (a b : List Char) : Nat := lcsF (a.length + b.length) a b

/-- Model of rapidfuzz `fuzz.ratio`: the normalized indel similarity on a
0-100 scale.  The indel distance of two strings is
`|a| + |b| - 2 * lcs a b`, so the similarity is `200 * lcs / (|a| + |b|)`;
two empty strings are fully similar by convention. -/
def fuzz_ratio (a b : String) : ℚ :=
  if a.data.length + b.data.length = 0 then 100
  else (200 * (lcs a.data b.data : ℚ)) / ((a.data.length : ℚ) + (b.data.length : ℚ))

/-- All contiguous sublists of a list (with duplicates; only used under `max`). -/
def contigSubs (l : List Char) : List (List Char) :=
  (l.tails.map (fun t => t.inits)).flatten

/-- Model of rapidfuzz `fuzz.partial` `ratio`: the best `fuzz_ratio` between
the shorter string and any contiguous substring of the longer one
(the best-aligning-substring similarity of the specification). -/
def fuzz_substr_ratio (a b : String) : ℚ :=
  let s := if a.data.length ≤ b.data.length then a else b
  let l := if a.data.length ≤ b.data.length then b else a
  ((contigSubs l.data).map (fun w => fuzz_ratio s (String.mk w))).foldr max 0

/-- Codepoint-lexicographic order on char lists (Python string comparison). -/
def lexLe : List Char → List Char → Bool
  | [], _ => true
  | _ :: _, [] => false
  | a :: as, b :: bs => if a = b then lexLe as bs else decide (a.toNat < b.toNat)

/-- Insertion into a sorted list of strings (codepoint-lexicographic order,
as Python `sorted` on str). -/
def insertSorted (x : String) : List String → List String
  | [] => [x]
  | y :: ys => if lexLe x.data y.data then x :: y :: ys else y :: insertSorted x ys

/-- Sort a list of strings. -/
def sortStr (l : List String) : List String := l.foldr insertSorted []

/-- Whitespace tokenization as Python `str.split()`: split on whitespace
runs, discarding empty parts (fuel is a structural-recursion device, at
least the text length). -/
def splitWS : Nat → List Char → List String
  | 0, _ => []
  | _ + 1, [] => []
  | f + 1, c :: cs =>
    if c.isWhitespace then splitWS f cs
    else
      String.mk ((c :: cs).takeWhile (fun x => !x.isWhitespace)) ::
        splitWS f ((c :: cs).dropWhile (fun x => !x.isWhitespace))

/-- Python `str.split()` then duplicate-collapse and sort. -/
def sortedTokens (s : String) : List String :=
  sortStr (splitWS s.data.length s.data).dedup

/-- Join tokens with single spaces (Python `" ".join`). -/
def joinTok : List String → String
  | [] => ""
  | [t] => t
  | t :: ts => t ++ " " ++ joinTok ts

/-- Model of rapidfuzz `fuzz.token` `set` `ratio`: compare the sorted
duplicate-free token sets through their intersection and differences, taking
the best of the three pairwise `fuzz_ratio` comparisons (when one token set
contains the other, the first comparison is an exact match, giving 100). -/
def fuzz_token_set_ratio (a b : String) : ℚ :=
  let ta := sortedTokens a
  let tb := sortedTokens b
  let sect := joinTok (ta.filter (fun t => decide (t ∈ tb)))
  let s1 := stripStr (sect ++ " " ++ joinTok (ta.filter (fun t => !decide (t ∈ tb))))
  let s2 := stripStr (sect ++ " " ++ joinTok (tb.filter (fun t => !decide (t ∈ ta))))
  max (fuzz_ratio sect s1) (max (fuzz_ratio sect s2) (fuzz_ratio s1 s2))

/-- The three-metric score combination of `find_best_title_match`
(`match_final.py`, lines 157-161): `max(score1, score2 * 0.95, score3 * 0.9)`
computed on the normalized query and normalized proposal title. -/
def combined_score (nq np : String) : ℚ :=
  let score1 := fuzz_ratio nq np
  let score2 := fuzz_substr_ratio nq np
  let score3 := fuzz_token_set_ratio nq np
  max score1 (max (score2 * (95 / 100)) (score3 * (9 / 10)))

/-- A canonical forum proposal (the fields `match_final.py` reads). -/
structure Proposal where
  id : String
  title : String
deriving DecidableEq

/-- A value stored in an input-record dict: a string or JSON null. -/
inductive Val where
  | vnull : Val
  | vstr : String → Val
deriving DecidableEq

/-- An input record: a dict in insertion order. -/
abbrev Rec := List (String × Val)

/-- Dict read: the value at the first occurrence of the key, if any. -/
def dget : Rec → String → Option Val
  | [], _ => none
  | kv :: r, k => if kv.1 = k then some kv.2 else dget r k

/-- Key membership in a record dict (Python `k in d`). -/
def hasKey : Rec → String → Bool
  | [], _ => false
  | kv :: r, k => kv.1 == k || hasKey r k

/-- Python `r.get(k) or ''`: missing keys, nulls and empty strings all give `""`. -/
def getStrOr (r : Rec) (k : String) : String :=
  match dget r k with
  | some (Val.vstr s) => s
  | _ => ""

/-- Python `r.get('author_name')` stored into the result. -/
def getAuthor (r : Rec) : Option String :=
  match dget r "author_name" with
  | some (Val.vstr s) => some s
  | _ => none

/-- Python dict assignment `d[k] = v` on an association list: overwrite in
place when the key is present, append otherwise. -/
def dictSet (r : Rec) (k : String) (v : Val) : Rec :=
  if hasKey r k then r.map (fun kv => if kv.1 = k then (k, v) else kv)
  else r ++ [(k, v)]

/-- Key membership in a string-valued dict. -/
def hasKeyS : List (String × String) → String → Bool
  | [], _ => false
  | kv :: d, k => kv.1 == k || hasKeyS d k

/-- Python dict assignment for the string-valued slug index. -/
def dictInsert (d : List (String × String)) (k v : String) : List (String × String) :=
  if hasKeyS d k then d.map (fun kv => if kv.1 = k then (k, v) else kv)
  else d ++ [(k, v)]

/-- Lookup in a string-valued dict. -/
def dictGet : List (String × String) → String → Option String
  | [], _ => none
  | kv :: d, k => if kv.1 = k then some kv.2 else dictGet d k

/-- Embedding of `proposal_by_id`: Python dict comprehension `{p['id']: p for p in proposals}`
(for duplicate ids, the last proposal wins). -/
def proposal_by_id (ps : List Proposal) (i : String) : Option Proposal :=
  ps.foldl (fun acc p => if p.id = i then some p else acc) none

/-- The slug index `proposal_slugs`: for each proposal insert the slug of its
unescaped title and, when non-empty, the slug of its normalized title
(last write wins on key collisions, the accepted lossy-index behaviour). -/
def proposal_slugs (ps : List Proposal) : List (String × String) :=
  ps.foldl (fun d p =>
    let ti := html_unescape p.title
    let d1 := dictInsert d (title_to_slug ti) p.id
    let nt := normalize_title ti
    if nt = "" then d1 else dictInsert d1 (title_to_slug nt) p.id) []

/-- Python truthiness of an optional string: `None` and `""` are falsy. -/
def truthy : Option String → Bool
  | none => false
  | some s => decide (s ≠ "")

/-- One step of the fuzzy scan of `find_proposal_by_slug`: update the best
`(match, score)` pair when the current key scores strictly better. -/
def slugScanStep (slug : String) (acc : Option String × ℚ) (kv : String × String) :
    Option String × ℚ :=
  let score := fuzz_ratio slug kv.1
  if acc.2 < score then (some kv.2, score) else acc

/-- The fuzzy scan of `find_proposal_by_slug`: fold over every index entry
keeping the strictly best score seen (first entry wins ties). -/
def bestSlugScan (idx : List (String × String)) (slug : String) : Option String × ℚ :=
  idx.foldl (slugScanStep slug) (none, 0)

/-- Embedding of `find_proposal_by_slug` from `match_final.py`: empty guard, lowercase,
exact index hit with score 100, otherwise the fuzzy scan, returning the best
candidate when its score reaches 70 and `(None, best_score)` below. -/
def find_proposal_by_slug (idx : List (String × String)) (slug : String) : Option String × ℚ :=
  if slug = "" then (none, 0)
  else
    let slug := lowerStr slug
    match dictGet idx slug with
    | some pid => (some pid, 100)
    | none =>
      let best := bestSlugScan idx slug
      if (70 : ℚ) ≤ best.2 then best else (none, best.2)

/-- Embedding of `find_best_title_match` from `match_final.py`: linear scan over the whole
proposal universe, keeping the strictly best combined score (first proposal
wins ties); the candidate is returned only when the best score reaches
`min_score`. -/
def find_best_title_match (ps : List Proposal) (title : String) (min_score : ℚ) :
    Option String × Option String × ℚ :=
  if title = "" then (none, none, 0)
  else
    let nq := normalize_title title
    let best := ps.foldl (fun (acc : Option Proposal × ℚ) p =>
      let c := combined_score nq (normalize_title p.title)
      if acc.2 < c then (some p, c) else acc) (none, 0)
    if min_score ≤ best.2 then
      match best.1 with
      | some p => (some p.id, some (html_unescape p.title), best.2)
      | none => (none, none, best.2)
    else (none, none, best.2)

/-- Table `MANUAL_OVERRIDES_TALLY` from `match_final.py`, in declaration order. -/
def MANUAL_OVERRIDES_TALLY : List (String × String) :=
  [("ArbOS 20", "8b760c14-6f2b-4069-b326-23653e5c20f9"),
   ("BoLD + Infura Nova Validator", "4c1d960e-0ff6-47ba-92cf-d0612f84d2f6"),
   ("Subsidy Fund Proposal from the ADPC", "5b5c2bee-ea99-411a-afbb-a1df3f8d1b11"),
   ("ArbOS 51", "a952f794-6c33-453b-9e30-83e67dda98e2"),
   ("Safeguarding Software Developers", "08bc7918-8046-444c-b689-ebea647cb0ee")]

/-- Table `MANUAL_OVERRIDES_SNAPSHOT` from `match_final.py`. -/
def MANUAL_OVERRIDES_SNAPSHOT : List (String × String) :=
  [("Safeguarding Software Developers", "08bc7918-8046-444c-b689-ebea647cb0ee")]

/-- First override entry whose lowercased key phrase is contained in the
lowercased title (`key.lower() in title.lower()`), if any. -/
def snapOverrideHit (title : String) : Option (String × String) :=
  MANUAL_OVERRIDES_SNAPSHOT.find? (fun kv => hasSubstr (lowerStr kv.1) (lowerStr title))

/-- Same check against the tally override table. -/
def tallyOverrideHit (title : String) : Option (String × String) :=
  MANUAL_OVERRIDES_TALLY.find? (fun kv => hasSubstr (lowerStr kv.1) (lowerStr title))

/-- The generic-reference exclusion applied to extracted link slugs in the
snapshot loop: `'short-term-incentive' in slug or 'stip' in slug.split('-')`
or `'arbitrum-arbos-upgrades' in slug`. -/
def splitOnChar (ch : Char) : List Char → List (List Char)
  | [] => [[]]
  | c :: cs =>
    let r := splitOnChar ch cs
    if c = ch then [] :: r else (c :: r.headD []) :: r.tail

def is_generic_slug (slug : String) : Bool :=
  hasSubstr "short-term-incentive" slug ||
    decide ("stip".data ∈ splitOnChar '-' slug.data) ||
    hasSubstr "arbitrum-arbos-upgrades" slug

/-- One step of the snapshot link-strategy fold: skip generic slugs,
resolve the slug and keep the strictly best `(match, score, slug)` triple
(note that a below-threshold resolution updates the best score with a `None`
match, exactly as in the source). -/
def snapLinkStep (idx : List (String × String)) (acc : Option String × ℚ × Option String)
    (sl : String × Option String) : Option String × ℚ × Option String :=
  if is_generic_slug sl.1 then acc
  else
    let r := find_proposal_by_slug idx sl.1
    if acc.2.1 < r.2 then (r.1, r.2, some sl.1) else acc

/-- The snapshot link-strategy fold over all extracted links
(`match_final.py`, lines 256-268). -/
def snapBestLink (idx : List (String × String)) (links : List (String × Option String)) :
    Option String × ℚ × Option String :=
  links.foldl (snapLinkStep idx) (none, 0, none)

/-- The tally link strategy: walk the extracted links in order and use the
first one resolving to a truthy id with score at least 70 (`break` on hit);
no generic-slug exclusion is applied in this loop. -/
def tallyFirstLink (idx : List (String × String)) :
    List (String × Option String) → Option (String × ℚ)
  | [] => none
  | (slug, _) :: rest =>
    let r := find_proposal_by_slug idx slug
    match r.1 with
    | some pid => if pid ≠ "" ∧ (70 : ℚ) ≤ r.2 then some (pid, r.2) else tallyFirstLink idx rest
    | none => tallyFirstLink idx rest

/-- The per-record result dict of the snapshot loop. -/
structure SnapResult where
  id : String
  title : String
  author : Option String
  proposal_id : Option String
  matched_title : Option String
  score : Option ℚ
  method : Option String
  forum_links : List (String × Option String)
  category : String
deriving DecidableEq

/-- The per-record result dict of the tally loop (it has no `forum_links` key). -/
structure TallyResult where
  id : String
  title : String
  author : Option String
  proposal_id : Option String
  matched_title : Option String
  score : Option ℚ
  method : Option String
  category : String
deriving DecidableEq

/-- The six buckets of `snapshot_results`. -/
inductive SnapBucket where
  | matched_by_link | matched_by_title | low_confidence | stip_ltipp | elections | unmatched
deriving DecidableEq

/-- The three buckets of `tally_results`. -/
inductive TallyBucket where
  | matched | low_confidence | unmatched
deriving DecidableEq

/-- The method string of a snapshot link match:
`f'forum_link_slug ({best_link_slug[:30]}...)'` (the slug is always present
when this is built). -/
def linkMethodStr (sl : Option String) : String :=
  "forum_link_slug (" ++ (sl.getD "").take 30 ++ "...)"

/-- The matched title recorded for a snapshot link match:
the unescaped proposal title when the id is known, else `None`. -/
def linkTitle (ps : List Proposal) (m : Option String) : Option String :=
  match m with
  | some pid =>
    match proposal_by_id ps pid with
    | some p => some (html_unescape p.title)
    | none => none
  | none => none

/-- The four-way selection of the snapshot loop (`match_final.py`,
lines 271-292): title match at 70, else link match at 70, else title match
at 55, else link match at 60, else leave the result unresolved.  Guards use
Python truthiness of the candidate id. -/
def snapApply (ps : List Proposal) (r : SnapResult)
    (tm : Option String × Option String × ℚ) (bl : Option String × ℚ × Option String) :
    SnapResult :=
  if truthy tm.1 = true ∧ (70 : ℚ) ≤ tm.2.2 then
    { r with proposal_id := tm.1, matched_title := tm.2.1, score := some tm.2.2,
             method := some "title_fuzzy" }
  else if truthy bl.1 = true ∧ (70 : ℚ) ≤ bl.2.1 then
    { r with proposal_id := bl.1, score := some bl.2.1,
             method := some (linkMethodStr bl.2.2), matched_title := linkTitle ps bl.1 }
  else if truthy tm.1 = true ∧ (55 : ℚ) ≤ tm.2.2 then
    { r with proposal_id := tm.1, matched_title := tm.2.1, score := some tm.2.2,
             method := some "title_fuzzy" }
  else if truthy bl.1 = true ∧ (60 : ℚ) ≤ bl.2.1 then
    { r with proposal_id := bl.1, score := some bl.2.1,
             method := some (linkMethodStr bl.2.2), matched_title := linkTitle ps bl.1 }
  else r

/-- The final bucket assignment of the snapshot loop: resolved records with
score at least 70 split by method substring `forum_link` (with `str(None)`
spelled `"None"` as in Python), lower scores to `low_confidence` with the
category overwritten, unresolved records to `unmatched`. -/
def snapBucketize (r : SnapResult) : SnapBucket × SnapResult :=
  if truthy r.proposal_id = true then
    if (70 : ℚ) ≤ r.score.getD 0 then
      if hasSubstr "forum_link" (r.method.getD "None") then (SnapBucket.matched_by_link, r)
      else (SnapBucket.matched_by_title, r)
    else (SnapBucket.low_confidence, { r with category := "low_confidence" })
  else (SnapBucket.unmatched, r)

/-- One iteration of the snapshot matching loop (`match_final.py`,
lines 201-305): category checks, manual override, then the two strategies
and the selection. -/
def snapshotStep (ps : List Proposal) (s : Rec) : SnapBucket × SnapResult :=
  let title := getStrOr s "title"
  let body := getStrOr s "body"
  let base : SnapResult :=
    ⟨getStrOr s "id", title, getAuthor s, none, none, none, none, [], "standard"⟩
  if is_stip_ltipp_protocol title = true then
    (SnapBucket.stip_ltipp,
     { base with category := "stip_ltipp_protocol", forum_links := extract_forum_links body })
  else if is_election title = true then
    (SnapBucket.elections, { base with category := "election" })
  else
    match snapOverrideHit title with
    | some kv =>
      (SnapBucket.matched_by_title,
       { base with proposal_id := some kv.2, method := some "manual_override",
                   score := some 100,
                   matched_title := some (match proposal_by_id ps kv.2 with
                     | some p => p.title
                     | none => "Manual") })
    | none =>
      let links := extract_forum_links body
      let tm := find_best_title_match ps title 55
      let bl := snapBestLink (proposal_slugs ps) links
      snapBucketize (snapApply ps { base with forum_links := links } tm bl)

/-- The manual-override stage of the tally loop (`match_final.py`,
lines 349-356): on a hit, resolve with score 100 and method
`manual_override`. -/
def tallyOvStage (ps : List Proposal) (title : String) (base : TallyResult) : TallyResult :=
  match tallyOverrideHit title with
  | some kv =>
    { base with proposal_id := some kv.2, method := some "manual_override",
                score := some 100,
                matched_title := some (match proposal_by_id ps kv.2 with
                  | some p => html_unescape p.title
                  | none => "Manual") }
  | none => base

/-- The forum-link stage of the tally loop (`match_final.py`, lines 358-369):
run only when the record is still unresolved; use the first extracted link
that resolves with a truthy id and score at least 70. -/
def tallyLinkStage (ps : List Proposal) (description : String) (r1 : TallyResult) :
    TallyResult :=
  if truthy r1.proposal_id = true then r1
  else
    match tallyFirstLink (proposal_slugs ps) (extract_forum_links description) with
    | some pr =>
      { r1 with proposal_id := some pr.1, score := some pr.2,
                method := some "forum_link_slug",
                matched_title := match proposal_by_id ps pr.1 with
                  | some p => some (html_unescape p.title)
                  | none => none }
    | none => r1

/-- The fuzzy-title stage of the tally loop (`match_final.py`,
lines 371-378): run only when still unresolved, with `min_score=60`. -/
def tallyTitleStage (ps : List Proposal) (title : String) (r2 : TallyResult) : TallyResult :=
  if truthy r2.proposal_id = true then r2
  else
    let tm := find_best_title_match ps title 60
    if truthy tm.1 = true then
      { r2 with proposal_id := tm.1, matched_title := tm.2.1, score := some tm.2.2,
                method := some "title_fuzzy" }
    else r2

/-- The final bucket assignment of the tally loop (`match_final.py`,
lines 380-387): resolved records go to `matched` at score 75 and above, to
`low_confidence` (with the category overwritten) below; unresolved records
go to `unmatched`. -/
def tallyBucketize (r : TallyResult) : TallyBucket × TallyResult :=
  if truthy r.proposal_id = true then
    if (75 : ℚ) ≤ r.score.getD 0 then (TallyBucket.matched, r)
    else (TallyBucket.low_confidence, { r with category := "low_confidence" })
  else (TallyBucket.unmatched, r)

/-- One iteration of the tally matching loop (`match_final.py`,
lines 329-387): garbage check, manual override, forum-link strategy first,
then fuzzy title matching, then the bucket assignment at threshold 75. -/
def tallyStep (ps : List Proposal) (t : Rec) : TallyBucket × TallyResult :=
  let title := getStrOr t "title"
  let description := getStrOr t "description"
  let base : TallyResult :=
    ⟨getStrOr t "id", title, getAuthor t, none, none, none, none, "standard"⟩
  if title = "" ∨ title ∈ garbage_titles then
    (TallyBucket.unmatched, { base with category := "garbage" })
  else
    tallyBucketize (tallyTitleStage ps title (tallyLinkStage ps description
      (tallyOvStage ps title base)))

/-- All snapshot results in input order, tagged with their buckets. -/
def snapshotAll (ps : List Proposal) (src : List Rec) : List (SnapBucket × SnapResult) :=
  src.map (snapshotStep ps)

/-- The contents of one snapshot bucket, in append order. -/
def snapshotBucket (ps : List Proposal) (src : List Rec) (b : SnapBucket) : List SnapResult :=
  (snapshotAll ps src).filterMap (fun x => if x.1 = b then some x.2 else none)

/-- All tally results in input order, tagged with their buckets. -/
def tallyAll (ps : List Proposal) (src : List Rec) : List (TallyBucket × TallyResult) :=
  src.map (tallyStep ps)

/-- The contents of one tally bucket, in append order. -/
def tallyBucket (ps : List Proposal) (src : List Rec) (b : TallyBucket) : List TallyResult :=
  (tallyAll ps src).filterMap (fun x => if x.1 = b then some x.2 else none)

/-- Wrap an optional string as a dict value (`None` becomes JSON null). -/
def valOfOpt : Option String → Val
  | some s => Val.vstr s
  | none => Val.vnull

/-- Dict read for `Val`-valued dicts (same as `dget`). -/
def dictGetV (d : List (String × Val)) (k : String) : Option Val := dget d k

/-- Dict assignment for `Val`-valued dicts (same as `dictSet`). -/
def dictInsertV (d : List (String × Val)) (k : String) (v : Val) : List (String × Val) :=
  dictSet d k v

/-- Embedding of `snapshot_id_to_proposal`: the ids resolved in the two high-confidence
snapshot buckets (`matched_by_link` then `matched_by_title`), later writes
winning. -/
def snapMatchMap (ps : List Proposal) (src : List Rec) : List (String × Val) :=
  ((snapshotBucket ps src SnapBucket.matched_by_link) ++
   (snapshotBucket ps src SnapBucket.matched_by_title)).foldl
    (fun d r => dictInsertV d r.id (valOfOpt r.proposal_id)) []

/-- Embedding of `tally_id_to_proposal`: the ids resolved in the tally `matched` bucket. -/
def tallyMatchMap (ps : List Proposal) (src : List Rec) : List (String × Val) :=
  (tallyBucket ps src TallyBucket.matched).foldl
    (fun d r => dictInsertV d r.id (valOfOpt r.proposal_id)) []

/-- Embedding of `snapshot_stage_updated`: copy each input record and set `proposal_id`
on it exactly when its id is in `snapshot_id_to_proposal`. -/
def snapshot_stage_updated (ps : List Proposal) (src : List Rec) : List Rec :=
  src.map (fun s =>
    match dictGetV (snapMatchMap ps src) (getStrOr s "id") with
    | some v => dictSet s "proposal_id" v
    | none => s)

/-- Embedding of `tally_stage_updated`: same update for the tally collection. -/
def tally_stage_updated (ps : List Proposal) (src : List Rec) : List Rec :=
  src.map (fun t =>
    match dictGetV (tallyMatchMap ps src) (getStrOr t "id") with
    | some v => dictSet t "proposal_id" v
    | none => t)

set_option maxRecDepth 40000

lemma snapBucketize_pid (r : SnapResult) : (snapBucketize r).2.proposal_id = r.proposal_id := by
  unfold snapBucketize; split_ifs <;> rfl

lemma snapBucketize_score (r : SnapResult) : (snapBucketize r).2.score = r.score := by
  unfold snapBucketize; split_ifs <;> rfl

lemma snapBucketize_method (r : SnapResult) : (snapBucketize r).2.method = r.method := by
  unfold snapBucketize; split_ifs <;> rfl

lemma snapBucketize_matched_title (r : SnapResult) :
    (snapBucketize r).2.matched_title = r.matched_title := by
  unfold snapBucketize; split_ifs <;> rfl

@[simp] lemma truthy_none : truthy none = false := rfl

lemma truthy_some_of_ne {s : String} (h : s ≠ "") : truthy (some s) = true := by
  simp [truthy, h]

lemma truthy_ne_none {o : Option String} (h : truthy o = true) : o ≠ none := by
  cases o with
  | none => simp [truthy] at h
  | some s => simp

lemma snapApply_none_iff (ps : List Proposal) (r : SnapResult)
    (tm : Option String × Option String × ℚ) (bl : Option String × ℚ × Option String)
    (h1 : r.proposal_id = none) (h2 : r.score = none) :
    ((snapApply ps r tm bl).proposal_id = none ↔ (snapApply ps r tm bl).score = none) := by
  unfold snapApply
  split_ifs with h3 h4 h5 h6
  · simpa using (truthy_ne_none h3.1)
  · simpa using (truthy_ne_none h4.1)
  · simpa using (truthy_ne_none h5.1)
  · simpa using (truthy_ne_none h6.1)
  · simp [h1, h2]

lemma snapshotStep_none_iff (ps : List Proposal) (s : Rec) :
    ((snapshotStep ps s).2.proposal_id = none ↔ (snapshotStep ps s).2.score = none) := by
  simp only [snapshotStep]
  split_ifs with h1 h2
  · simp
  · simp
  · split
    · simp
    · rw [snapBucketize_pid, snapBucketize_score]
      exact snapApply_none_iff _ _ _ _ rfl rfl

lemma tallyBucketize_pid (r : TallyResult) :
    (tallyBucketize r).2.proposal_id = r.proposal_id := by
  unfold tallyBucketize; split_ifs <;> rfl

lemma tallyBucketize_score (r : TallyResult) : (tallyBucketize r).2.score = r.score := by
  unfold tallyBucketize; split_ifs <;> rfl

lemma tallyBucketize_method (r : TallyResult) : (tallyBucketize r).2.method = r.method := by
  unfold tallyBucketize; split_ifs <;> rfl

lemma tallyBucketize_matched_title (r : TallyResult) :
    (tallyBucketize r).2.matched_title = r.matched_title := by
  unfold tallyBucketize; split_ifs <;> rfl

lemma tallyOvStage_none_iff (ps : List Proposal) (title : String) (base : TallyResult)
    (h : base.proposal_id = none ↔ base.score = none) :
    ((tallyOvStage ps title base).proposal_id = none ↔
      (tallyOvStage ps title base).score = none) := by
  unfold tallyOvStage
  split
  · simp
  · exact h

lemma tallyLinkStage_none_iff (ps : List Proposal) (description : String) (r1 : TallyResult)
    (h : r1.proposal_id = none ↔ r1.score = none) :
    ((tallyLinkStage ps description r1).proposal_id = none ↔
      (tallyLinkStage ps description r1).score = none) := by
  unfold tallyLinkStage
  split_ifs with h1
  · exact h
  · split
    · simp
    · exact h

lemma tallyTitleStage_none_iff (ps : List Proposal) (title : String) (r2 : TallyResult)
    (h : r2.proposal_id = none ↔ r2.score = none) :
    ((tallyTitleStage ps title r2).proposal_id = none ↔
      (tallyTitleStage ps title r2).score = none) := by
  simp only [tallyTitleStage]
  split_ifs with h1 h2
  · exact h
  · simpa using truthy_ne_none h2
  · exact h

lemma tallyStep_none_iff (ps : List Proposal) (t : Rec) :
    ((tallyStep ps t).2.proposal_id = none ↔ (tallyStep ps t).2.score = none) := by
  simp only [tallyStep]
  split_ifs with h1
  · simp
  · rw [tallyBucketize_pid, tallyBucketize_score]
    exact tallyTitleStage_none_iff _ _ _ (tallyLinkStage_none_iff _ _ _
      (tallyOvStage_none_iff _ _ _ (by simp)))

lemma snap_partition (l : List (SnapBucket × SnapResult)) :
    (l.filterMap (fun x => if x.1 = SnapBucket.matched_by_link then some x.2 else none)).length +
    (l.filterMap (fun x => if x.1 = SnapBucket.matched_by_title then some x.2 else none)).length +
    (l.filterMap (fun x => if x.1 = SnapBucket.low_confidence then some x.2 else none)).length +
    (l.filterMap (fun x => if x.1 = SnapBucket.stip_ltipp then some x.2 else none)).length +
    (l.filterMap (fun x => if x.1 = SnapBucket.elections then some x.2 else none)).length +
    (l.filterMap (fun x => if x.1 = SnapBucket.unmatched then some x.2 else none)).length
      = l.length := by
  induction l with
  | nil => simp
  | cons hd tl ih =>
    rcases hd with ⟨b, r⟩
    cases b <;> simp [List.filterMap_cons] <;> omega

lemma tally_partition (l : List (TallyBucket × TallyResult)) :
    (l.filterMap (fun x => if x.1 = TallyBucket.matched then some x.2 else none)).length +
    (l.filterMap (fun x => if x.1 = TallyBucket.low_confidence then some x.2 else none)).length +
    (l.filterMap (fun x => if x.1 = TallyBucket.unmatched then some x.2 else none)).length
      = l.length := by
  induction l with
  | nil => simp
  | cons hd tl ih =>
    rcases hd with ⟨b, r⟩
    cases b <;> simp [List.filterMap_cons] <;> omega

/-- C4: for every input record of either source variant exactly one
MatchResult is produced (each per-record step yields one result, the results
are in one-to-one correspondence with the input records, and the buckets
partition them), and in every result the candidate id is set if and only if
the score is set. -/
theorem match_result_exactly_one_and_id_iff_score
    (ps : List Proposal) (s t : Rec) (src tsrc : List Rec) :
    ((snapshotStep ps s).2.proposal_id = none ↔ (snapshotStep ps s).2.score = none) ∧
    ((tallyStep ps t).2.proposal_id = none ↔ (tallyStep ps t).2.score = none) ∧
    (snapshotAll ps src).length = src.length ∧
    ((snapshotBucket ps src SnapBucket.matched_by_link).length +
      (snapshotBucket ps src SnapBucket.matched_by_title).length +
      (snapshotBucket ps src SnapBucket.low_confidence).length +
      (snapshotBucket ps src SnapBucket.stip_ltipp).length +
      (snapshotBucket ps src SnapBucket.elections).length +
      (snapshotBucket ps src SnapBucket.unmatched).length = src.length) ∧
    (tallyAll ps tsrc).length = tsrc.length ∧
    ((tallyBucket ps tsrc TallyBucket.matched).length +
      (tallyBucket ps tsrc TallyBucket.low_confidence).length +
      (tallyBucket ps tsrc TallyBucket.unmatched).length = tsrc.length) := by
  refine ⟨snapshotStep_none_iff ps s, tallyStep_none_iff ps t, by simp [snapshotAll], ?_,
    by simp [tallyAll], ?_⟩
  · have h := snap_partition (snapshotAll ps src)
    have hl : (snapshotAll ps src).length = src.length := by simp [snapshotAll]
    rw [hl] at h
    simpa [snapshotBucket] using h
  · have h := tally_partition (tallyAll ps tsrc)
    have hl : (tallyAll ps tsrc).length = tsrc.length := by simp [tallyAll]
    rw [hl] at h
    simpa [tallyBucket] using h

lemma snapshotStep_heuristic (ps : List Proposal) (s : Rec)
    (h1 : is_stip_ltipp_protocol (getStrOr s "title") = false)
    (h2 : is_election (getStrOr s "title") = false)
    (h3 : snapOverrideHit (getStrOr s "title") = none) :
    snapshotStep ps s = snapBucketize (snapApply ps
      ⟨getStrOr s "id", getStrOr s "title", getAuthor s, none, none, none, none,
       extract_forum_links (getStrOr s "body"), "standard"⟩
      (find_best_title_match ps (getStrOr s "title") 55)
      (snapBestLink (proposal_slugs ps) (extract_forum_links (getStrOr s "body")))) := by
  simp only [snapshotStep, h1, h2, h3]
  simp

/-- C3: for every snapshot record that reaches the selection step (not
protocol-grant, not election, no override hit), the candidate is chosen in
this fixed order: the title match if its score is at least 70; else the link
match if its score is at least 70; else the title match if its score is at
least 55; else the link match if its score is at least 60; else no candidate
is assigned. -/
theorem snapshot_selection_order (ps : List Proposal) (s : Rec)
    (tm : Option String × Option String × ℚ) (bl : Option String × ℚ × Option String)
    (h1 : is_stip_ltipp_protocol (getStrOr s "title") = false)
    (h2 : is_election (getStrOr s "title") = false)
    (h3 : snapOverrideHit (getStrOr s "title") = none)
    (htm : find_best_title_match ps (getStrOr s "title") 55 = tm)
    (hbl : snapBestLink (proposal_slugs ps) (extract_forum_links (getStrOr s "body")) = bl) :
    ((truthy tm.1 = true ∧ (70 : ℚ) ≤ tm.2.2) →
        (snapshotStep ps s).2.proposal_id = tm.1 ∧
        (snapshotStep ps s).2.score = some tm.2.2 ∧
        (snapshotStep ps s).2.method = some "title_fuzzy") ∧
    (¬(truthy tm.1 = true ∧ (70 : ℚ) ≤ tm.2.2) →
      (truthy bl.1 = true ∧ (70 : ℚ) ≤ bl.2.1) →
        (snapshotStep ps s).2.proposal_id = bl.1 ∧
        (snapshotStep ps s).2.score = some bl.2.1 ∧
        (snapshotStep ps s).2.method = some (linkMethodStr bl.2.2)) ∧
    (¬(truthy tm.1 = true ∧ (70 : ℚ) ≤ tm.2.2) →
      ¬(truthy bl.1 = true ∧ (70 : ℚ) ≤ bl.2.1) →
      (truthy tm.1 = true ∧ (55 : ℚ) ≤ tm.2.2) →
        (snapshotStep ps s).2.proposal_id = tm.1 ∧
        (snapshotStep ps s).2.score = some tm.2.2 ∧
        (snapshotStep ps s).2.method = some "title_fuzzy") ∧
    (¬(truthy tm.1 = true ∧ (70 : ℚ) ≤ tm.2.2) →
      ¬(truthy bl.1 = true ∧ (70 : ℚ) ≤ bl.2.1) →
      ¬(truthy tm.1 = true ∧ (55 : ℚ) ≤ tm.2.2) →
      (truthy bl.1 = true ∧ (60 : ℚ) ≤ bl.2.1) →
        (snapshotStep ps s).2.proposal_id = bl.1 ∧
        (snapshotStep ps s).2.score = some bl.2.1 ∧
        (snapshotStep ps s).2.method = some (linkMethodStr bl.2.2)) ∧
    (¬(truthy tm.1 = true ∧ (70 : ℚ) ≤ tm.2.2) →
      ¬(truthy bl.1 = true ∧ (70 : ℚ) ≤ bl.2.1) →
      ¬(truthy tm.1 = true ∧ (55 : ℚ) ≤ tm.2.2) →
      ¬(truthy bl.1 = true ∧ (60 : ℚ) ≤ bl.2.1) →
        (snapshotStep ps s).2.proposal_id = none ∧
        (snapshotStep ps s).2.score = none) := by
  have hstep := snapshotStep_heuristic ps s h1 h2 h3
  rw [htm, hbl] at hstep
  refine ⟨?_, ?_, ?_, ?_, ?_⟩
  · intro hc
    rw [hstep, snapBucketize_pid, snapBucketize_score, snapBucketize_method]
    simp only [snapApply, if_pos hc]
    exact ⟨trivial, trivial, trivial⟩
  · intro hn1 hc
    rw [hstep, snapBucketize_pid, snapBucketize_score, snapBucketize_method]
    simp only [snapApply, if_neg hn1, if_pos hc]
    exact ⟨trivial, trivial, trivial⟩
  · intro hn1 hn2 hc
    rw [hstep, snapBucketize_pid, snapBucketize_score, snapBucketize_method]
    simp only [snapApply, if_neg hn1, if_neg hn2, if_pos hc]
    exact ⟨trivial, trivial, trivial⟩
  · intro hn1 hn2 hn3 hc
    rw [hstep, snapBucketize_pid, snapBucketize_score, snapBucketize_method]
    simp only [snapApply, if_neg hn1, if_neg hn2, if_neg hn3, if_pos hc]
    exact ⟨trivial, trivial, trivial⟩
  · intro hn1 hn2 hn3 hn4
    rw [hstep, snapBucketize_pid, snapBucketize_score]
    simp only [snapApply, if_neg hn1, if_neg hn2, if_neg hn3, if_neg hn4]
    exact ⟨trivial, trivial⟩

/-- Witness for the selection-order theorem: a concrete snapshot record whose
title matches a proposal exactly falls into the first branch of the order. -/
theorem snapshot_selection_order_witness :
    (snapshotStep [⟨"P1", "ab"⟩] [("id", Val.vstr "S1"), ("title", Val.vstr "ab")]).2.proposal_id
      = some "P1" := by
  have h := snapshot_selection_order [⟨"P1", "ab"⟩]
    [("id", Val.vstr "S1"), ("title", Val.vstr "ab")]
    (find_best_title_match [⟨"P1", "ab"⟩] "ab" 55)
    (snapBestLink (proposal_slugs [⟨"P1", "ab"⟩]) [])
    (by decide) (by decide) (by decide) (by decide) (by decide)
  have hc : truthy (find_best_title_match [⟨"P1", "ab"⟩] "ab" 55).1 = true ∧
      (70 : ℚ) ≤ (find_best_title_match [⟨"P1", "ab"⟩] "ab" 55).2.2 := by
    constructor
    · decide
    · decide
  have := (h.1 hc).1
  rw [this]
  decide

/-- C5 (amended): only the snapshot loop checks election patterns.  For every
snapshot record whose title matches an election pattern and no
protocol-grant pattern, the classification is terminal: the record goes to
the elections bucket with category `election` and no candidate, regardless
of the override table and of the body content (the result depends on
nothing but the title fields read here). -/
theorem snapshot_election_terminal (ps : List Proposal) (s : Rec)
    (he : is_election (getStrOr s "title") = true)
    (hs : is_stip_ltipp_protocol (getStrOr s "title") = false) :
    snapshotStep ps s = (SnapBucket.elections,
      ⟨getStrOr s "id", getStrOr s "title", getAuthor s, none, none, none, none, [],
       "election"⟩) := by
  simp only [snapshotStep, he, hs]
  simp

/-- Witness: a concrete snapshot record with an election title, an override
phrase in the title and a forum link in the body is still bucketed
`elections` with no candidate. -/
theorem snapshot_election_terminal_witness :
    snapshotStep [] [("id", Val.vstr "S9"),
      ("title", Val.vstr "Safeguarding Software Developers Council Election"),
      ("body", Val.vstr "forum.arbitrum.foundation/t/some-proposal/7")] =
    (SnapBucket.elections,
      ⟨"S9", "Safeguarding Software Developers Council Election", none, none, none, none,
       none, [], "election"⟩) := by
  have h := snapshot_election_terminal [] [("id", Val.vstr "S9"),
    ("title", Val.vstr "Safeguarding Software Developers Council Election"),
    ("body", Val.vstr "forum.arbitrum.foundation/t/some-proposal/7")]
    (by decide) (by decide)
  rw [h]
  decide

/-- Counterexample to C5 as stated: the tally loop never checks election
patterns, so a tally record whose title exactly matches an election pattern
is not bucketed `election` (the tally loop has no election bucket at all);
it just flows through the ordinary pipeline, here ending unmatched with
category `standard`. -/
theorem tally_election_counterexample :
    is_election "Security Council Election Cycle 5" = true ∧
    tallyStep [] [("id", Val.vstr "T9"),
      ("title", Val.vstr "Security Council Election Cycle 5")] =
    (TallyBucket.unmatched,
      ⟨"T9", "Security Council Election Cycle 5", none, none, none, none, none,
       "standard"⟩) := by
  constructor
  · decide
  · decide

/-- C10: a snapshot record resolved by a manual override (method
`manual_override`, score 100) is appended to the `matched_by_title` bucket,
not to `matched_by_link` nor to any dedicated override bucket. -/
theorem snapshot_override_bucket (ps : List Proposal) (s : Rec) (kv : String × String)
    (hs : is_stip_ltipp_protocol (getStrOr s "title") = false)
    (he : is_election (getStrOr s "title") = false)
    (ho : snapOverrideHit (getStrOr s "title") = some kv) :
    snapshotStep ps s = (SnapBucket.matched_by_title,
      ⟨getStrOr s "id", getStrOr s "title", getAuthor s, some kv.2,
       some (match proposal_by_id ps kv.2 with | some p => p.title | none => "Manual"),
       some 100, some "manual_override", [], "standard"⟩) := by
  simp only [snapshotStep, hs, he, ho]
  simp

/-- Witness: the one snapshot override key phrase, contained in a concrete
record title, resolves to the fixed id with score 100 in `matched_by_title`. -/
theorem snapshot_override_bucket_witness :
    snapshotStep [] [("id", Val.vstr "S3"),
      ("title", Val.vstr "Safeguarding Software Developers wins")] =
    (SnapBucket.matched_by_title,
      ⟨"S3", "Safeguarding Software Developers wins", none,
       some "08bc7918-8046-444c-b689-ebea647cb0ee", some "Manual", some 100,
       some "manual_override", [], "standard"⟩) := by
  have h := snapshot_override_bucket [] [("id", Val.vstr "S3"),
    ("title", Val.vstr "Safeguarding Software Developers wins")]
    ("Safeguarding Software Developers", "08bc7918-8046-444c-b689-ebea647cb0ee")
    (by decide) (by decide) (by decide)
  rw [h]
  decide

lemma tallyFirstLink_sound (idx : List (String × String)) :
    ∀ links pid sc, tallyFirstLink idx links = some (pid, sc) → pid ≠ "" ∧ (70 : ℚ) ≤ sc := by
  intro links
  induction links with
  | nil => intro pid sc h; simp [tallyFirstLink] at h
  | cons hd tl ih =>
    intro pid sc h
    rcases hd with ⟨slug, tid⟩
    simp only [tallyFirstLink] at h
    rcases hr : (find_proposal_by_slug idx slug).1 with _ | p
    · simp only [hr] at h
      exact ih _ _ h
    · simp only [hr] at h
      split_ifs at h with hcond
      · simp only [Option.some.injEq, Prod.mk.injEq] at h
        rcases h with ⟨h1, h2⟩
        subst h1
        subst h2
        exact hcond
      · exact ih _ _ h

lemma tallyStep_heuristic (ps : List Proposal) (t : Rec)
    (hg : ¬(getStrOr t "title" = "" ∨ getStrOr t "title" ∈ garbage_titles))
    (ho : tallyOverrideHit (getStrOr t "title") = none) :
    tallyStep ps t = tallyBucketize (tallyTitleStage ps (getStrOr t "title")
      (tallyLinkStage ps (getStrOr t "description")
        ⟨getStrOr t "id", getStrOr t "title", getAuthor t, none, none, none, none,
         "standard"⟩)) := by
  simp only [tallyStep]
  rw [if_neg hg]
  simp only [tallyOvStage, ho]

/-- C1 (amended): for every tally record that reaches the heuristic step
(not garbage, no override hit) the forum-link strategy runs first: the first
extracted link resolving to a truthy id with score at least 70 is used
unconditionally, whether or not a title match exists; only when no link
qualifies is the fuzzy title match (minimum score 60) used; absent both, no
candidate is assigned. -/
theorem tally_selection_link_first (ps : List Proposal) (t : Rec)
    (hg : ¬(getStrOr t "title" = "" ∨ getStrOr t "title" ∈ garbage_titles))
    (ho : tallyOverrideHit (getStrOr t "title") = none) :
    (∀ pid sc,
      tallyFirstLink (proposal_slugs ps) (extract_forum_links (getStrOr t "description"))
          = some (pid, sc) →
        (tallyStep ps t).2.proposal_id = some pid ∧
        (tallyStep ps t).2.score = some sc ∧
        (tallyStep ps t).2.method = some "forum_link_slug") ∧
    (tallyFirstLink (proposal_slugs ps) (extract_forum_links (getStrOr t "description"))
        = none →
      truthy (find_best_title_match ps (getStrOr t "title") 60).1 = true →
        (tallyStep ps t).2.proposal_id = (find_best_title_match ps (getStrOr t "title") 60).1 ∧
        (tallyStep ps t).2.score
          = some (find_best_title_match ps (getStrOr t "title") 60).2.2 ∧
        (tallyStep ps t).2.method = some "title_fuzzy") ∧
    (tallyFirstLink (proposal_slugs ps) (extract_forum_links (getStrOr t "description"))
        = none →
      truthy (find_best_title_match ps (getStrOr t "title") 60).1 = false →
        (tallyStep ps t).2.proposal_id = none ∧ (tallyStep ps t).2.score = none) := by
  have hstep := tallyStep_heuristic ps t hg ho
  refine ⟨?_, ?_, ?_⟩
  · intro pid sc hfl
    have hpid := tallyFirstLink_sound _ _ _ _ hfl
    rw [hstep, tallyBucketize_pid, tallyBucketize_score, tallyBucketize_method]
    simp [tallyTitleStage, tallyLinkStage, hfl, truthy_some_of_ne hpid.1]
  · intro hfl htm
    rw [hstep, tallyBucketize_pid, tallyBucketize_score, tallyBucketize_method]
    simp [tallyTitleStage, tallyLinkStage, hfl, htm]
  · intro hfl htm
    rw [hstep, tallyBucketize_pid, tallyBucketize_score]
    simp [tallyTitleStage, tallyLinkStage, hfl, htm]

/-- Witness: a concrete tally record whose description carries a resolvable
forum link is resolved by the link stage. -/
theorem tally_selection_link_first_witness :
    (tallyStep [⟨"P1", "ab"⟩, ⟨"P2", "cd"⟩]
      [("id", Val.vstr "T1"), ("title", Val.vstr "cd"),
       ("description", Val.vstr "forum.arbitrum.foundation/t/ab")]).2.proposal_id
      = some "P1" := by
  have h := tally_selection_link_first [⟨"P1", "ab"⟩, ⟨"P2", "cd"⟩]
    [("id", Val.vstr "T1"), ("title", Val.vstr "cd"),
     ("description", Val.vstr "forum.arbitrum.foundation/t/ab")]
    (by decide) (by decide)
  exact (h.1 "P1" 100 (by decide)).1

/-- Counterexample to C1 as stated: a tally record for which a title match
exists (proposal `P2`, combined score 100, well above the minimum 60), yet
the link match is used because the tally loop runs the link strategy first
and never consults the title matcher once a link resolves. -/
theorem tally_link_over_title_counterexample :
    truthy (find_best_title_match [⟨"P1", "ab"⟩, ⟨"P2", "cd"⟩] "cd" 60).1 = true ∧
    (find_best_title_match [⟨"P1", "ab"⟩, ⟨"P2", "cd"⟩] "cd" 60).1 = some "P2" ∧
    (60 : ℚ) ≤ (find_best_title_match [⟨"P1", "ab"⟩, ⟨"P2", "cd"⟩] "cd" 60).2.2 ∧
    (tallyStep [⟨"P1", "ab"⟩, ⟨"P2", "cd"⟩]
      [("id", Val.vstr "T1"), ("title", Val.vstr "cd"),
       ("description", Val.vstr "forum.arbitrum.foundation/t/ab")]).2.proposal_id
      = some "P1" ∧
    (tallyStep [⟨"P1", "ab"⟩, ⟨"P2", "cd"⟩]
      [("id", Val.vstr "T1"), ("title", Val.vstr "cd"),
       ("description", Val.vstr "forum.arbitrum.foundation/t/ab")]).2.method
      = some "forum_link_slug" := by
  refine ⟨by decide, by decide, by decide, by decide, by decide⟩

lemma tallyOvStage_category (ps : List Proposal) (title : String) (r : TallyResult) :
    (tallyOvStage ps title r).category = r.category := by
  unfold tallyOvStage; split <;> rfl

lemma tallyLinkStage_category (ps : List Proposal) (desc : String) (r : TallyResult) :
    (tallyLinkStage ps desc r).category = r.category := by
  unfold tallyLinkStage
  split_ifs
  · rfl
  · split <;> rfl

lemma tallyTitleStage_category (ps : List Proposal) (title : String) (r : TallyResult) :
    (tallyTitleStage ps title r).category = r.category := by
  simp only [tallyTitleStage]
  split_ifs <;> rfl

lemma tallyBucketize_category (r : TallyResult) :
    (tallyBucketize r).2.category = r.category ∨
      (tallyBucketize r).2.category = "low_confidence" := by
  unfold tallyBucketize
  split_ifs
  · left; rfl
  · right; rfl
  · left; rfl

/-- C7 (amended): in the matching engine a tally record is classified
garbage exactly when its title is absent or empty or is literally one of the
block-list entries; garbage records get no candidate and land in the
unmatched bucket.  The trimmed-title comparison and the minimum-length-3
rule exist only in the separate prompt-generation skip filter
`is_skip_tally`, which is also characterized here. -/
theorem tally_garbage_exact (ps : List Proposal) (t : Rec) :
    ((tallyStep ps t).2.category = "garbage" ↔
      (getStrOr t "title" = "" ∨ getStrOr t "title" ∈ garbage_titles)) ∧
    ((getStrOr t "title" = "" ∨ getStrOr t "title" ∈ garbage_titles) →
      (tallyStep ps t).1 = TallyBucket.unmatched ∧
      (tallyStep ps t).2.proposal_id = none) ∧
    (∀ ti : String, is_skip_tally ti = true ↔
      (ti = "" ∨ stripStr ti ∈ garbage_titles ∨ (stripStr ti).length < 3)) := by
  refine ⟨⟨?_, ?_⟩, ?_, ?_⟩
  · intro hcat
    by_contra hng
    have hc : (tallyStep ps t).2.category = "standard" ∨
        (tallyStep ps t).2.category = "low_confidence" := by
      simp only [tallyStep]
      rw [if_neg hng]
      rcases tallyBucketize_category (tallyTitleStage ps (getStrOr t "title")
        (tallyLinkStage ps (getStrOr t "description")
          (tallyOvStage ps (getStrOr t "title")
            ⟨getStrOr t "id", getStrOr t "title", getAuthor t, none, none, none, none,
             "standard"⟩))) with h | h
      · left
        rw [h, tallyTitleStage_category, tallyLinkStage_category, tallyOvStage_category]
      · right
        exact h
    rcases hc with h | h <;> rw [hcat] at h <;> exact absurd h (by decide)
  · intro hg
    simp only [tallyStep]
    rw [if_pos hg]
  · intro hg
    simp only [tallyStep]
    rw [if_pos hg]
    exact ⟨rfl, rfl⟩
  · intro ti
    by_cases h : ti = "" <;> simp [is_skip_tally, h]

/-- Witness: a concrete block-listed tally title lands unmatched with no
candidate. -/
theorem tally_garbage_exact_witness :
    (tallyStep [] [("id", Val.vstr "T5"), ("title", Val.vstr "AIP 4")]).1
        = TallyBucket.unmatched ∧
    (tallyStep [] [("id", Val.vstr "T5"), ("title", Val.vstr "AIP 4")]).2.proposal_id
        = none := by
  have h := tally_garbage_exact [] [("id", Val.vstr "T5"), ("title", Val.vstr "AIP 4")]
  exact h.2.1 (by decide)

/-- Counterexample to C7 as stated: the two-character title "ab" is shorter
than three characters once trimmed (so the claim calls it garbage, and the
prompt-generation filter would indeed skip it), yet the matching engine does
not classify it garbage: the record proceeds through the pipeline with
category `standard`. -/
theorem short_title_not_garbage_counterexample :
    is_skip_tally "ab" = true ∧
    (stripStr "ab").length < 3 ∧
    (tallyStep [] [("id", Val.vstr "T3"), ("title", Val.vstr "ab")]).2.category
        = "standard" := by
  refine ⟨by decide, by decide, by decide⟩

lemma slugScanStep_ge (slug : String) (acc : Option String × ℚ) (kv : String × String) :
    acc.2 ≤ (slugScanStep slug acc kv).2 ∧
      fuzz_ratio slug kv.1 ≤ (slugScanStep slug acc kv).2 := by
  simp only [slugScanStep]
  split_ifs with h
  · exact ⟨le_of_lt h, le_refl _⟩
  · exact ⟨le_refl _, le_of_not_lt h⟩

lemma slugScan_inv (slug : String) (idx : List (String × String)) :
    ∀ acc : Option String × ℚ,
      acc.2 ≤ (idx.foldl (slugScanStep slug) acc).2 ∧
      (∀ kv ∈ idx, fuzz_ratio slug kv.1 ≤ (idx.foldl (slugScanStep slug) acc).2) ∧
      ((idx.foldl (slugScanStep slug) acc) = acc ∨
        ∃ kv ∈ idx, (idx.foldl (slugScanStep slug) acc) = (some kv.2, fuzz_ratio slug kv.1)) := by
  induction idx with
  | nil => intro acc; exact ⟨le_refl _, by simp, Or.inl rfl⟩
  | cons hd tl ih =>
    intro acc
    simp only [List.foldl_cons]
    rcases ih (slugScanStep slug acc hd) with ⟨h1, h2, h3⟩
    rcases slugScanStep_ge slug acc hd with ⟨hs1, hs2⟩
    refine ⟨le_trans hs1 h1, ?_, ?_⟩
    · intro kv hkv
      rcases List.mem_cons.mp hkv with hkv | hkv
      · subst hkv
        exact le_trans hs2 h1
      · exact h2 kv hkv
    · rcases h3 with h3 | ⟨kv, hkv, h3⟩
      · rw [h3]
        simp only [slugScanStep]
        split_ifs with h
        · right
          exact ⟨hd, List.mem_cons_self hd tl, rfl⟩
        · left; rfl
      · right
        exact ⟨kv, List.mem_cons_of_mem hd hkv, h3⟩

/-- C8 (amended): for every non-empty slug query, an exact (lowercased) key
hit returns that id with score 100; otherwise every index key is scanned
with the edit-similarity ratio, the returned score bounds every key's score
from above, a best score of at least 70 comes with the id of a key attaining
it, and a best score below 70 returns no candidate with the score still
reported.  An empty query short-circuits to `(none, 0)` without consulting
the index. -/
theorem resolve_slug_spec (idx : List (String × String)) (slug : String) (h : slug ≠ "") :
    (∀ pid, dictGet idx (lowerStr slug) = some pid →
      find_proposal_by_slug idx slug = (some pid, 100)) ∧
    (dictGet idx (lowerStr slug) = none →
      (∀ kv ∈ idx, fuzz_ratio (lowerStr slug) kv.1 ≤ (find_proposal_by_slug idx slug).2) ∧
      ((70 : ℚ) ≤ (find_proposal_by_slug idx slug).2 →
        ∃ kv ∈ idx, fuzz_ratio (lowerStr slug) kv.1 = (find_proposal_by_slug idx slug).2 ∧
          (find_proposal_by_slug idx slug).1 = some kv.2) ∧
      ((find_proposal_by_slug idx slug).2 < 70 →
        (find_proposal_by_slug idx slug).1 = none)) ∧
    find_proposal_by_slug idx "" = (none, 0) := by
  refine ⟨?_, ?_, by simp [find_proposal_by_slug]⟩
  · intro pid hd
    simp only [find_proposal_by_slug]
    rw [if_neg h, hd]
  · intro hd
    have hres : find_proposal_by_slug idx slug =
        (if (70 : ℚ) ≤ (bestSlugScan idx (lowerStr slug)).2
         then bestSlugScan idx (lowerStr slug)
         else (none, (bestSlugScan idx (lowerStr slug)).2)) := by
      simp only [find_proposal_by_slug]
      rw [if_neg h, hd]
    have hres2 : (find_proposal_by_slug idx slug).2 = (bestSlugScan idx (lowerStr slug)).2 := by
      rw [hres]
      split_ifs <;> rfl
    rcases slugScan_inv (lowerStr slug) idx (none, 0) with ⟨_, hbound, hattain⟩
    refine ⟨?_, ?_, ?_⟩
    · intro kv hkv
      rw [hres2]
      exact hbound kv hkv
    · intro h70
      rw [hres2] at h70
      rcases hattain with ha | ⟨kv, hkv, ha⟩
      · exfalso
        have h0 : (bestSlugScan idx (lowerStr slug)).2 = 0 := by
          unfold bestSlugScan
          rw [ha]
        rw [h0] at h70
        norm_num at h70
      · refine ⟨kv, hkv, ?_, ?_⟩
        · rw [hres2]
          unfold bestSlugScan
          rw [ha]
        · rw [hres]
          rw [if_pos h70]
          unfold bestSlugScan
          rw [ha]
    · intro hlt
      rw [hres2] at hlt
      rw [hres, if_neg (not_le.mpr hlt)]

/-- Witness: an exact index key resolves with score 100. -/
theorem resolve_slug_spec_witness :
    find_proposal_by_slug [("ab", "P1")] "ab" = (some "P1", 100) := by
  have h := resolve_slug_spec [("ab", "P1")] "ab" (by decide)
  exact h.1 "P1" (by decide)

/-- Counterexample to C8 as stated: the empty string can be an index key
(a title with no word characters slugifies to the empty slug, and the first
index insertion is unguarded), and then the exact-key promise fails: the
empty-query guard returns `(none, 0)` before the lookup. -/
theorem empty_slug_counterexample :
    dictGet [("", "P1")] "" = some "P1" ∧
    find_proposal_by_slug [("", "P1")] "" = (none, 0) :=
  ⟨by decide, by decide⟩

/-- C9 (amended): the combined title-match score is exactly
`max(ratio, substring_ratio * 0.95, token_set_ratio * 0.90)`; it is never
less than any individual weighted term, and whenever a discounted term
exceeds the plain ratio the combined score is strictly greater than the
ratio (so `combined = ratio` is what fails there, never `combined ≥ ratio`). -/
theorem combined_score_max_spec (q p : String) :
    combined_score q p = max (fuzz_ratio q p)
      (max (fuzz_substr_ratio q p * (95 / 100)) (fuzz_token_set_ratio q p * (9 / 10))) ∧
    fuzz_ratio q p ≤ combined_score q p ∧
    fuzz_substr_ratio q p * (95 / 100) ≤ combined_score q p ∧
    fuzz_token_set_ratio q p * (9 / 10) ≤ combined_score q p ∧
    ((fuzz_ratio q p < fuzz_substr_ratio q p * (95 / 100) ∨
      fuzz_ratio q p < fuzz_token_set_ratio q p * (9 / 10)) →
      fuzz_ratio q p < combined_score q p) := by
  refine ⟨rfl, le_max_left _ _, ?_, ?_, ?_⟩
  · exact le_trans (le_max_left _ _) (le_max_right _ _)
  · exact le_trans (le_max_right _ _) (le_max_right _ _)
  · intro hc
    rcases hc with hc | hc
    · exact lt_of_lt_of_le hc (le_trans (le_max_left _ _) (le_max_right _ _))
    · exact lt_of_lt_of_le hc (le_trans (le_max_right _ _) (le_max_right _ _))

/-- Witness: at a concrete pair of normalized titles the discount condition
holds and the combined score strictly exceeds the ratio. -/
theorem combined_score_max_spec_witness :
    fuzz_ratio "ab" "ab xyz" < combined_score "ab" "ab xyz" := by
  have h := combined_score_max_spec "ab" "ab xyz"
  exact h.2.2.2.2 (Or.inl (by decide))

/-- Counterexample to C9 as stated: for the query title "ab" against the
canonical title "ab xyz" the substring ratio times 0.95 exceeds the plain
ratio, yet `combined_score ≥ ratio` is true (the claim asserts it is false
in that situation, contradicting its own max formula). -/
theorem combined_ge_ratio_counterexample :
    fuzz_ratio (normalize_title "ab") (normalize_title "ab xyz") <
      fuzz_substr_ratio (normalize_title "ab") (normalize_title "ab xyz") * (95 / 100) ∧
    fuzz_ratio (normalize_title "ab") (normalize_title "ab xyz") ≤
      combined_score (normalize_title "ab") (normalize_title "ab xyz") := by
  constructor
  · decide
  · decide

lemma snapLinkStep_ge (idx : List (String × String)) (acc : Option String × ℚ × Option String)
    (sl : String × Option String) :
    acc.2.1 ≤ (snapLinkStep idx acc sl).2.1 ∧
      (is_generic_slug sl.1 = false →
        (find_proposal_by_slug idx sl.1).2 ≤ (snapLinkStep idx acc sl).2.1) := by
  simp only [snapLinkStep]
  split_ifs with hg h
  · exact ⟨le_refl _, fun hc => by rw [hg] at hc; cases hc⟩
  · exact ⟨le_of_lt h, fun _ => le_refl _⟩
  · exact ⟨le_refl _, fun _ => le_of_not_lt h⟩

lemma snapLink_filter (idx : List (String × String)) :
    ∀ (links : List (String × Option String)) (acc : Option String × ℚ × Option String),
      links.foldl (snapLinkStep idx) acc =
        (links.filter (fun sl => !is_generic_slug sl.1)).foldl (snapLinkStep idx) acc := by
  intro links
  induction links with
  | nil => intro acc; rfl
  | cons hd tl ih =>
    intro acc
    by_cases hg : is_generic_slug hd.1 = true
    · have hstep : snapLinkStep idx acc hd = acc := by simp [snapLinkStep, hg]
      simp [List.foldl_cons, List.filter_cons, hg, hstep, ih]
    · simp only [List.foldl_cons, List.filter_cons]
      rw [Bool.not_eq_true] at hg
      simp [hg, ih]

lemma snapLink_inv (idx : List (String × String)) (links : List (String × Option String)) :
    ∀ acc : Option String × ℚ × Option String,
      acc.2.1 ≤ (links.foldl (snapLinkStep idx) acc).2.1 ∧
      (∀ sl ∈ links, is_generic_slug sl.1 = false →
        (find_proposal_by_slug idx sl.1).2 ≤ (links.foldl (snapLinkStep idx) acc).2.1) ∧
      ((links.foldl (snapLinkStep idx) acc) = acc ∨
        ∃ sl ∈ links, is_generic_slug sl.1 = false ∧
          (links.foldl (snapLinkStep idx) acc)
            = ((find_proposal_by_slug idx sl.1).1, (find_proposal_by_slug idx sl.1).2,
               some sl.1)) := by
  induction links with
  | nil => intro acc; exact ⟨le_refl _, by simp, Or.inl rfl⟩
  | cons hd tl ih =>
    intro acc
    simp only [List.foldl_cons]
    rcases ih (snapLinkStep idx acc hd) with ⟨h1, h2, h3⟩
    rcases snapLinkStep_ge idx acc hd with ⟨hs1, hs2⟩
    refine ⟨le_trans hs1 h1, ?_, ?_⟩
    · intro sl hsl hgen
      rcases List.mem_cons.mp hsl with hsl | hsl
      · subst hsl
        exact le_trans (hs2 hgen) h1
      · exact h2 sl hsl hgen
    · rcases h3 with h3 | ⟨sl, hsl, hgen, h3⟩
      · rw [h3]
        simp only [snapLinkStep]
        split_ifs with hg h
        · left; rfl
        · right
          refine ⟨hd, List.mem_cons_self hd tl, ?_, rfl⟩
          rw [Bool.not_eq_true] at hg
          exact hg
        · left; rfl
      · right
        exact ⟨sl, List.mem_cons_of_mem hd hsl, hgen, h3⟩

/-- C2 (amended): the generic-reference exclusion and the keep-only-the-best
rule hold in the snapshot loop: excluded slugs are skipped (the fold is
unchanged by filtering them out), the kept score bounds the resolution score
of every non-excluded link, and whenever a link candidate is kept it is the
resolution of one of the non-excluded links.  The tally loop applies no
exclusion and keeps no best: the first extracted link whose slug resolves to
a truthy id with score at least 70 is used immediately, generic or not. -/
theorem link_filter_and_best (idx : List (String × String))
    (links : List (String × Option String)) (slug : String) (tid : Option String)
    (rest : List (String × Option String)) (pid : String) (sc : ℚ)
    (hres : find_proposal_by_slug idx slug = (some pid, sc))
    (hpid : pid ≠ "") (hsc : (70 : ℚ) ≤ sc) :
    snapBestLink idx links
        = snapBestLink idx (links.filter (fun sl => !is_generic_slug sl.1)) ∧
    (∀ sl ∈ links, is_generic_slug sl.1 = false →
      (find_proposal_by_slug idx sl.1).2 ≤ (snapBestLink idx links).2.1) ∧
    (truthy (snapBestLink idx links).1 = true →
      ∃ sl ∈ links, is_generic_slug sl.1 = false ∧
        snapBestLink idx links
          = ((find_proposal_by_slug idx sl.1).1, (find_proposal_by_slug idx sl.1).2,
             some sl.1)) ∧
    tallyFirstLink idx ((slug, tid) :: rest) = some (pid, sc) := by
  refine ⟨snapLink_filter idx links (none, 0, none), ?_, ?_, ?_⟩
  · intro sl hsl hgen
    exact (snapLink_inv idx links (none, 0, none)).2.1 sl hsl hgen
  · intro htr
    rcases (snapLink_inv idx links (none, 0, none)).2.2 with h | h
    · exfalso
      have : truthy (none : Option String) = true := by
        have hb : (snapBestLink idx links).1 = none := by
          unfold snapBestLink
          rw [h]
        rw [hb] at htr
        exact htr
      simp at this
    · exact h
  · simp only [tallyFirstLink, hres]
    rw [if_pos ⟨hpid, hsc⟩]

/-- Witness: a generic ArbOS-hub slug still resolves and is used by the
tally link strategy. -/
theorem link_filter_and_best_witness :
    tallyFirstLink (proposal_slugs [⟨"P9", "arbitrum arbos upgrades"⟩])
      [("arbitrum-arbos-upgrades", none)] = some ("P9", 100) := by
  have h := link_filter_and_best (proposal_slugs [⟨"P9", "arbitrum arbos upgrades"⟩])
    [] "arbitrum-arbos-upgrades" none [] "P9" 100 (by decide) (by decide) (by decide)
  exact h.2.2.2

/-- Counterexample to C2 as stated: a tally record whose description
contains only a link with a slug on the generic-reference exclusion list is
nevertheless resolved through that link (the tally loop applies no
exclusion). -/
theorem tally_generic_slug_counterexample :
    is_generic_slug "arbitrum-arbos-upgrades" = true ∧
    (tallyStep [⟨"P9", "arbitrum arbos upgrades"⟩]
      [("id", Val.vstr "T4"), ("title", Val.vstr "qq"),
       ("description", Val.vstr "forum.arbitrum.foundation/t/arbitrum-arbos-upgrades")]
      ).2.proposal_id = some "P9" ∧
    (tallyStep [⟨"P9", "arbitrum arbos upgrades"⟩]
      [("id", Val.vstr "T4"), ("title", Val.vstr "qq"),
       ("description", Val.vstr "forum.arbitrum.foundation/t/arbitrum-arbos-upgrades")]
      ).2.method = some "forum_link_slug" := by
  refine ⟨by decide, by decide, by decide⟩

lemma dget_map_set (k : String) (v : Val) :
    ∀ r : Rec, hasKey r k = true →
      dget (r.map (fun kv => if kv.1 = k then (k, v) else kv)) k = some v := by
  intro r
  induction r with
  | nil => intro h; simp [hasKey] at h
  | cons hd tl ih =>
    intro h
    by_cases hb : hd.1 = k
    · simp [dget, hb]
    · have h' : hasKey tl k = true := by simpa [hasKey, hb] using h
      simpa [dget, hb] using ih h'

lemma dget_append_set (k : String) (v : Val) :
    ∀ r : Rec, dget (r ++ [(k, v)]) k = some v ∨ (dget r k).isSome := by
  intro r
  induction r with
  | nil => left; simp [dget]
  | cons hd tl ih =>
    by_cases hb : hd.1 = k
    · right; simp [dget, hb]
    · rcases ih with h | h
      · left; simpa [dget, hb] using h
      · right; simpa [dget, hb] using h

lemma hasKey_false_dget (k : String) :
    ∀ r : Rec, hasKey r k = false → dget r k = none := by
  intro r
  induction r with
  | nil => intro h; rfl
  | cons hd tl ih =>
    intro h
    have hb : (hd.1 == k) = false := by
      rcases hb : (hd.1 == k) with _ | _
      · rfl
      · rw [hasKey, hb] at h; simp at h
    have h' : hasKey tl k = false := by simpa [hasKey, hb] using h
    have hb' : ¬(hd.1 = k) := by simpa using hb
    simpa [dget, hb'] using ih h'

lemma dget_dictSet_self (r : Rec) (k : String) (v : Val) :
    dget (dictSet r k v) k = some v := by
  unfold dictSet
  split_ifs with h
  · exact dget_map_set k v r h
  · rcases dget_append_set k v r with hd | hd
    · exact hd
    · exfalso
      rw [hasKey_false_dget k r (by simpa using h)] at hd
      simp at hd

lemma dget_dictSet_other (r : Rec) (k k' : String) (v : Val) (hk : k' ≠ k) :
    dget (dictSet r k v) k' = dget r k' := by
  unfold dictSet
  split_ifs with h
  · clear h
    induction r with
    | nil => rfl
    | cons hd tl ih =>
      by_cases hb : hd.1 = k
      · have hne : ¬((k : String) = k') := Ne.symm hk
        have hne2 : ¬(hd.1 = k') := by rw [hb]; exact hne
        simpa [dget, hb, hne, hne2] using ih
      · by_cases hb2 : hd.1 = k'
        · simp [dget, hb, hb2, hk]
        · simpa [dget, hb, hb2] using ih
  · clear h
    induction r with
    | nil =>
      have hne : ¬((k : String) = k') := Ne.symm hk
      simp [dget, hne]
    | cons hd tl ih =>
      by_cases hb2 : hd.1 = k'
      · simp [dget, hb2]
      · simpa [dget, hb2] using ih

lemma zip_map_snd {α β : Type} (f : α → β) :
    ∀ (l : List α) (p : α × β), p ∈ l.zip (l.map f) → p.2 = f p.1 := by
  intro l
  induction l with
  | nil => intro p h; simp at h
  | cons hd tl ih =>
    intro p h
    simp only [List.map_cons, List.zip_cons_cons, List.mem_cons] at h
    rcases h with h | h
    · rw [h]
    · exact ih p h

/-- C6 (amended): per source the output is a positional copy of the input
collection: same length and order, every field other than `proposal_id`
preserved verbatim.  `proposal_id` is set (to the resolved id) exactly for
the records whose id is in the high-confidence match map (snapshot buckets
`matched_by_link`/`matched_by_title`; tally bucket `matched`); every other
record — unmatched, excluded, or resolved only with low confidence — is
returned completely unchanged, with no null `proposal_id` added. -/
theorem updated_output_spec (ps : List Proposal) (src : List Rec) :
    (snapshot_stage_updated ps src).length = src.length ∧
    (tally_stage_updated ps src).length = src.length ∧
    (∀ p ∈ src.zip (snapshot_stage_updated ps src),
      (∀ k, k ≠ "proposal_id" → dget p.2 k = dget p.1 k) ∧
      (match dictGetV (snapMatchMap ps src) (getStrOr p.1 "id") with
       | some v => dget p.2 "proposal_id" = some v
       | none => p.2 = p.1)) ∧
    (∀ p ∈ src.zip (tally_stage_updated ps src),
      (∀ k, k ≠ "proposal_id" → dget p.2 k = dget p.1 k) ∧
      (match dictGetV (tallyMatchMap ps src) (getStrOr p.1 "id") with
       | some v => dget p.2 "proposal_id" = some v
       | none => p.2 = p.1)) := by
  refine ⟨by simp [snapshot_stage_updated], by simp [tally_stage_updated], ?_, ?_⟩
  · intro p hp
    simp only [snapshot_stage_updated] at hp
    have hp2 := zip_map_snd _ src p hp
    rcases hm : dictGetV (snapMatchMap ps src) (getStrOr p.1 "id") with _ | v
    · rw [hm] at hp2
      exact ⟨fun k _ => by rw [hp2], by rw [hp2]⟩
    · rw [hm] at hp2
      constructor
      · intro k hk
        rw [hp2]
        exact dget_dictSet_other p.1 "proposal_id" k v hk
      · rw [hp2]
        exact dget_dictSet_self p.1 "proposal_id" v
  · intro p hp
    simp only [tally_stage_updated] at hp
    have hp2 := zip_map_snd _ src p hp
    rcases hm : dictGetV (tallyMatchMap ps src) (getStrOr p.1 "id") with _ | v
    · rw [hm] at hp2
      exact ⟨fun k _ => by rw [hp2], by rw [hp2]⟩
    · rw [hm] at hp2
      constructor
      · intro k hk
        rw [hp2]
        exact dget_dictSet_other p.1 "proposal_id" k v hk
      · rw [hp2]
        exact dget_dictSet_self p.1 "proposal_id" v

/-- Witness: a high-confidence snapshot match writes `proposal_id` onto the
copied record. -/
theorem updated_output_spec_witness :
    dget ((snapshot_stage_updated [⟨"P1", "ab"⟩]
        [[("id", Val.vstr "S1"), ("title", Val.vstr "ab")]]).headD [])
      "proposal_id" = some (Val.vstr "P1") := by
  have h := updated_output_spec [⟨"P1", "ab"⟩]
    [[("id", Val.vstr "S1"), ("title", Val.vstr "ab")]]
  have hp := h.2.2.1
    ([("id", Val.vstr "S1"), ("title", Val.vstr "ab")],
     [("id", Val.vstr "S1"), ("title", Val.vstr "ab"), ("proposal_id", Val.vstr "P1")])
    (by decide)
  have hm : dictGetV (snapMatchMap [⟨"P1", "ab"⟩]
      [[("id", Val.vstr "S1"), ("title", Val.vstr "ab")]])
      (getStrOr [("id", Val.vstr "S1"), ("title", Val.vstr "ab")] "id")
      = some (Val.vstr "P1") := by decide
  have h2 := hp.2
  rw [hm] at h2
  have h3 : (snapshot_stage_updated [⟨"P1", "ab"⟩]
      [[("id", Val.vstr "S1"), ("title", Val.vstr "ab")]]).headD []
      = [("id", Val.vstr "S1"), ("title", Val.vstr "ab"), ("proposal_id", Val.vstr "P1")] := by
    decide
  rw [h3]
  exact h2

/-- Counterexample to C6 as stated: an unmatched snapshot record is copied
back without any `proposal_id` field at all — the output record has no such
key, rather than a null one. -/
theorem unmatched_no_proposal_id_counterexample :
    snapshot_stage_updated [] [[("id", Val.vstr "S1")]] = [[("id", Val.vstr "S1")]] ∧
    dget [("id", Val.vstr "S1")] "proposal_id" = none :=
  ⟨by decide, by decide⟩

/-- Witness: on a concrete one-record snapshot input the six buckets hold
exactly one result in total. -/
theorem match_result_exactly_one_witness :
    (snapshotBucket [] [[("id", Val.vstr "S1")]] SnapBucket.matched_by_link).length +
    (snapshotBucket [] [[("id", Val.vstr "S1")]] SnapBucket.matched_by_title).length +
    (snapshotBucket [] [[("id", Val.vstr "S1")]] SnapBucket.low_confidence).length +
    (snapshotBucket [] [[("id", Val.vstr "S1")]] SnapBucket.stip_ltipp).length +
    (snapshotBucket [] [[("id", Val.vstr "S1")]] SnapBucket.elections).length +
    (snapshotBucket [] [[("id", Val.vstr "S1")]] SnapBucket.unmatched).length = 1 := by
  have h := match_result_exactly_one_and_id_iff_score [] [] [] [[("id", Val.vstr "S1")]] []
  exact h.2.2.2.1
